import Mathlib

/-!
Shallow embedding of the progress-tracking / healing-score engine of the
Hackaton backend (`backend/app/progress_analyzer.py`, together with the
baseline-detection logic of `backend/app/main.py` and
`backend/app/crud.py`).

Python floats are modelled as real numbers.  A Python function that can
raise an exception is modelled as returning `Except String`; in
particular `numpy.dot` raises `ValueError` on two 1-D arrays of unequal
length, which `cosine_similarity` propagates.
-/

namespace Hackaton

/-- One item of the `disease_predictions` JSON list of a `History` row:
a dictionary with a disease label and a confidence. -/
structure Prediction where
  disease : String
  confidence : ℝ

/-- A row of the `history` table (`models.History`), restricted to the
fields the progress engine reads.  `timestamp` is opaque and only
compared, so it is a natural number. -/
structure History where
  id : Nat
  timestamp : Nat
  section_id : Option String
  dino_embedding : Option (List ℝ)
  disease_predictions : List Prediction
  is_baseline : Bool

/-- `np.dot` on two 1-D vectors of equal length: the sum of pointwise
products. -/
def dotList (a b : List ℝ) : ℝ :=
  (List.zipWith (fun x y => x * y) a b).sum

/-- `cosine_similarity(embedding1, embedding2)` from
`progress_analyzer.py` lines 16-42.  The Python code returns `0.0` when
either list is empty, then calls `np.dot`, which raises on two
non-empty 1-D arrays of unequal length; otherwise it returns `0.0` when
either norm is zero and the quotient `dot / (norm1 * norm2)` else. -/
noncomputable def cosine_similarity (embedding1 embedding2 : List ℝ) :
    Except String ℝ :=
  if embedding1.isEmpty || embedding2.isEmpty then .ok 0
  else if embedding1.length ≠ embedding2.length then
    .error "shapes not aligned"
  else
    let dot_product := dotList embedding1 embedding2
    let norm1 := Real.sqrt (dotList embedding1 embedding1)
    let norm2 := Real.sqrt (dotList embedding2 embedding2)
    if norm1 = 0 ∨ norm2 = 0 then .ok 0
    else .ok (dot_product / (norm1 * norm2))

/-- `compute_healing_score(current, previous, higher_similarity_means_better)`
from `progress_analyzer.py` lines 45-74: normalise the similarity from
`[-1, 1]` to `[0, 1]`, orient by the polarity flag, scale to a
percentage and clamp to `[0, 100]`.  An exception from
`cosine_similarity` propagates. -/
noncomputable def compute_healing_score
    (current_embedding previous_embedding : List ℝ)
    (higher_similarity_means_better : Bool) : Except String ℝ :=
  (cosine_similarity current_embedding previous_embedding).map
    fun similarity =>
      let normalized_similarity := (similarity + 1) / 2
      let score :=
        if higher_similarity_means_better then normalized_similarity * 100
        else (1 - normalized_similarity) * 100
      max 0 (min 100 score)

/-- `analyze_trend(healing_scores)` from `progress_analyzer.py` lines
77-100: fewer than two scores is `stable`; otherwise classify the mean
of the successive differences against the fixed `±5` thresholds. -/
noncomputable def analyze_trend (healing_scores : List ℝ) : String :=
  if healing_scores.length < 2 then "stable"
  else
    let changes :=
      List.zipWith (fun a b => a - b) healing_scores.tail healing_scores
    let avg_change := changes.sum / (changes.length : ℝ)
    if avg_change > 5 then "improving"
    else if avg_change < -5 then "worsening"
    else "stable"

/-- One element of the `comparisons` list built by `compute_comparisons`
(`progress_analyzer.py` lines 263-269). -/
structure ComparisonResult where
  previous_entry_id : Nat
  previous_timestamp : Nat
  previous_top_disease : String
  current_similarity : ℝ
  healing_percentage : ℝ

/-- The missing-embedding test used twice in `compute_comparisons`
(lines 228-234 and 240-247): an embedding is usable unless it is `None`
or an empty list. -/
def embeddingOf (entry : History) : Option (List ℝ) :=
  match entry.dino_embedding with
  | none => none
  | some l => if l.isEmpty then none else some l

/-- `prev_entry.disease_predictions[0]['disease'] if
prev_entry.disease_predictions else 'Unknown'` (line 261). -/
def topDiseaseOf (entry : History) : String :=
  match entry.disease_predictions with
  | [] => "Unknown"
  | p :: _ => p.disease

/-- The body of the `for prev_entry in previous_entries` loop of
`compute_comparisons` (lines 239-273) for one previous entry: skip it
when it has no usable embedding, and skip it (the `except` branch) when
the pair computation raises; otherwise produce the appended
`ComparisonResult` together with the appended healing score. -/
noncomputable def comparePair (current_embedding : List ℝ)
    (prev_entry : History) : Option (ComparisonResult × ℝ) :=
  match embeddingOf prev_entry with
  | none => none
  | some prev_embedding =>
    match cosine_similarity current_embedding prev_embedding,
        compute_healing_score current_embedding prev_embedding false with
    | .ok similarity, .ok healing_score =>
      some (⟨prev_entry.id, prev_entry.timestamp, topDiseaseOf prev_entry,
             similarity, healing_score⟩, healing_score)
    | _, _ => none

/-- `compute_comparisons(current_entry, previous_entries)` from
`progress_analyzer.py` lines 213-277: return `([], 0.0)` when the
current entry has no usable embedding; otherwise walk the previous
entries in order accumulating the comparison dictionaries and the
healing scores in lockstep, and average the healing scores (`0.0` when
none succeeded). -/
noncomputable def compute_comparisons (current_entry : History)
    (previous_entries : List History) : List ComparisonResult × ℝ :=
  match embeddingOf current_entry with
  | none => ([], 0)
  | some current_embedding =>
    let results := previous_entries.filterMap (comparePair current_embedding)
    let comparisons := results.map (fun r => r.1)
    let healing_scores := results.map (fun r => r.2)
    let average_healing_score :=
      if healing_scores.isEmpty then 0
      else healing_scores.sum / (healing_scores.length : ℝ)
    (comparisons, average_healing_score)

/-- `get_section_history(db, section_id, skip, limit)` from `crud.py`
lines 601-624: the rows of the history table whose `section_id` matches,
ordered by timestamp descending, then `OFFSET skip LIMIT limit`.  The
database is modelled as the list of rows of the history table. -/
def get_section_history (db : List History) (section_id : String)
    (skip : Nat) (limit : Nat) : List History :=
  ((((db.filter (fun h => h.section_id == some section_id)).mergeSort
      (fun a b => decide (b.timestamp ≤ a.timestamp))).drop skip).take limit)

/-- The automatic baseline detection of `analyze_with_auto_save`
(`main.py` lines 427-439): fetch at most one existing entry of the
section and mark the new entry as baseline exactly when none exists. -/
def auto_is_baseline (db : List History) (section_id : String) : Bool :=
  (get_section_history db section_id 0 1).length == 0

/-! ### Helper lemmas -/

lemma dotList_self (v : List ℝ) :
    dotList v v = (v.map fun x => x * x).sum := by
  induction v with
  | nil => rfl
  | cons a t ih =>
    simp only [dotList, List.zipWith_cons_cons, List.sum_cons, List.map_cons] at *
    rw [ih]

lemma sumSq_nonneg (v : List ℝ) : 0 ≤ (v.map fun x => x * x).sum :=
  List.sum_nonneg (by
    intro x hx
    obtain ⟨y, -, rfl⟩ := List.mem_map.1 hx
    exact mul_self_nonneg y)

lemma sumSq_pos : ∀ {v : List ℝ}, (∃ x ∈ v, x ≠ 0) →
    0 < (v.map fun x => x * x).sum := by
  intro v
  induction v with
  | nil => rintro ⟨x, hx, -⟩; cases hx
  | cons a t ih =>
    rintro ⟨x, hx, hx0⟩
    simp only [List.map_cons, List.sum_cons]
    rcases List.mem_cons.1 hx with rfl | hxt
    · have h1 : 0 < x * x := mul_self_pos.2 hx0
      have h2 := sumSq_nonneg t
      linarith
    · have h1 := ih ⟨x, hxt, hx0⟩
      have h2 := mul_self_nonneg a
      linarith

lemma dotList_self_pos {v : List ℝ} (hv : ∃ x ∈ v, x ≠ 0) :
    0 < dotList v v := by
  rw [dotList_self]; exact sumSq_pos hv

lemma dotList_self_eq_zero {v : List ℝ} (hv : ∀ x ∈ v, x = 0) :
    dotList v v = 0 := by
  rw [dotList_self]
  refine List.sum_eq_zero ?_
  intro y hy
  obtain ⟨x, hx, rfl⟩ := List.mem_map.1 hy
  rw [hv x hx, mul_zero]

lemma changes_sum (x : ℝ) (xs : List ℝ) :
    (List.zipWith (fun a b => a - b) xs (x :: xs)).sum = xs.getLastD x - x := by
  induction xs generalizing x with
  | nil => simp
  | cons y ys ih =>
    simp only [List.zipWith_cons_cons, List.sum_cons, ih y, List.getLastD_cons]
    ring

lemma mergeSort_eq_nil_iff {α : Type} (r : α → α → Bool) (l : List α) :
    l.mergeSort r = [] ↔ l = [] := by
  constructor
  · intro h
    have hl := @List.length_mergeSort α r l
    rw [h] at hl
    exact List.length_eq_zero.1 hl.symm
  · rintro rfl
    exact List.mergeSort_nil

lemma filterMap_filter_of_none {α β : Type} (f : α → Option β) (p : α → Bool)
    (h : ∀ x, p x = false → f x = none) :
    ∀ l : List α, (l.filter p).filterMap f = l.filterMap f := by
  intro l
  induction l with
  | nil => rfl
  | cons a t ih =>
    by_cases hp : p a = true
    · rw [List.filter_cons_of_pos hp, List.filterMap_cons, List.filterMap_cons, ih]
    · rw [List.filter_cons_of_neg hp, List.filterMap_cons,
        h a (Bool.not_eq_true _ ▸ hp), ih]

lemma analyze_trend_two_le {l : List ℝ} (h : 2 ≤ l.length) :
    analyze_trend l =
      (if 5 < (List.zipWith (fun a b => a - b) l.tail l).sum / ((l.length - 1 : ℕ) : ℝ)
       then "improving"
       else if (List.zipWith (fun a b => a - b) l.tail l).sum / ((l.length - 1 : ℕ) : ℝ) < -5
       then "worsening"
       else "stable") := by
  have hn : ¬ l.length < 2 := not_lt.2 h
  have hlen : (List.zipWith (fun a b : ℝ => a - b) l.tail l).length = l.length - 1 := by
    rw [List.length_zipWith, List.length_tail]
    omega
  simp only [analyze_trend, if_neg hn, hlen]

lemma embeddingOf_eq_some {h : History} {l : List ℝ}
    (hd : h.dino_embedding = some l) (hl : l ≠ []) : embeddingOf h = some l := by
  rw [embeddingOf, hd]
  simp [List.isEmpty_iff, hl]

lemma embeddingOf_eq_none {h : History}
    (hd : h.dino_embedding = none) : embeddingOf h = none := by
  rw [embeddingOf, hd]

lemma compute_healing_score_ok {a b : List ℝ} {s : ℝ} (flag : Bool)
    (h : cosine_similarity a b = .ok s) :
    compute_healing_score a b flag =
      .ok (max 0 (min 100
        (if flag then ((s + 1) / 2) * 100 else (1 - (s + 1) / 2) * 100))) := by
  unfold compute_healing_score
  rw [h]
  rfl

lemma cosine_similarity_exists_ok {a b : List ℝ} (ha : a ≠ []) (hb : b ≠ [])
    (hl : a.length = b.length) : ∃ s, cosine_similarity a b = .ok s := by
  simp only [cosine_similarity]
  rw [if_neg (by simp [ha, hb]), if_neg (by simp [hl])]
  by_cases h0 : Real.sqrt (dotList a a) = 0 ∨ Real.sqrt (dotList b b) = 0
  · rw [if_pos h0]
    exact ⟨0, rfl⟩
  · rw [if_neg h0]
    exact ⟨_, rfl⟩

lemma comparePair_eq_ok {ce : List ℝ} {p : History} {pe : List ℝ} {s hs : ℝ}
    (hp : embeddingOf p = some pe)
    (hcos : cosine_similarity ce pe = .ok s)
    (hheal : compute_healing_score ce pe false = .ok hs) :
    comparePair ce p =
      some (⟨p.id, p.timestamp, topDiseaseOf p, s, hs⟩, hs) := by
  unfold comparePair
  rw [hp]
  simp only [hcos, hheal]

lemma comparePair_none_of_no_embedding {ce : List ℝ} {p : History}
    (hp : embeddingOf p = none) : comparePair ce p = none := by
  unfold comparePair
  rw [hp]

lemma comparePair_none_of_error {ce : List ℝ} {p : History} {pe : List ℝ}
    {e : String} (hp : embeddingOf p = some pe)
    (hcos : cosine_similarity ce pe = .error e) :
    comparePair ce p = none := by
  have hh : compute_healing_score ce pe false = .error e := by
    unfold compute_healing_score
    rw [hcos]
    rfl
  unfold comparePair
  rw [hp]
  simp only [hcos, hh]

lemma comparePair_snd {ce : List ℝ} {p : History} {r : ComparisonResult × ℝ}
    (h : comparePair ce p = some r) : r.2 = r.1.healing_percentage := by
  unfold comparePair at h
  split at h
  · cases h
  · split at h
    · cases h
      rfl
    · cases h

lemma compute_comparisons_eq_some {cur : History} {ce : List ℝ}
    (hc : embeddingOf cur = some ce) (prevs : List History) :
    compute_comparisons cur prevs =
      ((prevs.filterMap (comparePair ce)).map (fun r => r.1),
       if ((prevs.filterMap (comparePair ce)).map (fun r => r.2)).isEmpty then 0
       else ((prevs.filterMap (comparePair ce)).map (fun r => r.2)).sum /
         (((prevs.filterMap (comparePair ce)).map (fun r => r.2)).length : ℝ)) := by
  unfold compute_comparisons
  rw [hc]

lemma compute_comparisons_eq_of_no_embedding {cur : History}
    (hc : embeddingOf cur = none) (prevs : List History) :
    compute_comparisons cur prevs = ([], 0) := by
  unfold compute_comparisons
  rw [hc]

lemma sqrt_twentyfive : Real.sqrt 25 = 5 := by
  rw [show (25 : ℝ) = 5 ^ 2 by norm_num, Real.sqrt_sq (by norm_num)]

/-! ### Claims -/

/-- Claim C3: `analyze_trend` returns `"stable"` on fewer than two
scores; otherwise it classifies the mean of the successive differences
`scores[i] - scores[i-1]` against the fixed `±5` thresholds, and on the
spec's three concrete lists it returns `"improving"`, `"worsening"` and
`"stable"` respectively. -/
theorem analyze_trend_spec :
    (∀ scores : List ℝ, scores.length < 2 → analyze_trend scores = "stable") ∧
    (∀ scores : List ℝ, 2 ≤ scores.length →
      analyze_trend scores =
        (if 5 < (List.zipWith (fun a b => a - b) scores.tail scores).sum /
            ((scores.length - 1 : ℕ) : ℝ) then "improving"
         else if (List.zipWith (fun a b => a - b) scores.tail scores).sum /
            ((scores.length - 1 : ℕ) : ℝ) < -5 then "worsening"
         else "stable")) ∧
    analyze_trend [10, 20, 30] = "improving" ∧
    analyze_trend [30, 20, 10] = "worsening" ∧
    analyze_trend [50, 52, 49] = "stable" := by
  refine ⟨?_, fun scores h => analyze_trend_two_le h, ?_, ?_, ?_⟩
  · intro scores h
    simp only [analyze_trend, if_pos h]
  · rw [analyze_trend_two_le (by norm_num)]
    norm_num
  · rw [analyze_trend_two_le (by norm_num)]
    norm_num
  · rw [analyze_trend_two_le (by norm_num)]
    norm_num

/-- Evaluation of `analyze_trend_spec` at concrete inputs. -/
theorem analyze_trend_spec_witness : analyze_trend [(42 : ℝ)] = "stable" :=
  analyze_trend_spec.1 [42] (by norm_num)

/-- Claim C10: for at least two scores the classification of
`analyze_trend` depends only on the first score, the last score and the
length, because the sum of the successive differences telescopes to
`last - first`. -/
theorem analyze_trend_telescopes (l1 l2 : List ℝ)
    (h1 : 2 ≤ l1.length) (hlen : l1.length = l2.length)
    (hhead : l1.head? = l2.head?) (hlast : l1.getLast? = l2.getLast?) :
    analyze_trend l1 = analyze_trend l2 := by
  rcases l1 with - | ⟨a, t1⟩
  · norm_num at h1
  rcases t1 with - | ⟨c, t1⟩
  · norm_num at h1
  rcases l2 with - | ⟨b, t2⟩
  · simp at hlen
  rcases t2 with - | ⟨d, t2⟩
  · simp at hlen
  have hab : a = b := by simpa using hhead
  have hlast2 : (c :: t1).getLast? = (d :: t2).getLast? := by
    rwa [List.getLast?_cons_cons, List.getLast?_cons_cons] at hlast
  obtain ⟨z, hz⟩ : ∃ z, (c :: t1).getLast? = some z := by
    cases hzz : (c :: t1).getLast? with
    | none => exact absurd hzz (by simp [List.getLast?_eq_none_iff])
    | some z => exact ⟨z, rfl⟩
  have hz2 : (d :: t2).getLast? = some z := hlast2 ▸ hz
  have hlen2 : t1.length = t2.length := by simpa using hlen
  rw [analyze_trend_two_le (by simp), analyze_trend_two_le (by simp)]
  simp only [List.tail_cons, changes_sum, List.getLastD_eq_getLast?, hz, hz2,
    Option.getD_some, List.length_cons, hab, hlen2]

/-- Evaluation of `analyze_trend_telescopes` at concrete inputs. -/
theorem analyze_trend_telescopes_witness :
    analyze_trend [10, 0, 30] = analyze_trend [10, 25, 30] :=
  analyze_trend_telescopes [10, 0, 30] [10, 25, 30]
    (by norm_num) rfl rfl rfl

/-- Claim C5: under the system default polarity
`higher_similarity_means_better = false`, the cosine self-similarity of
any non-zero vector is `1` and the healing score of a vector against
itself is `0`. -/
theorem self_similarity_zero_healing (v : List ℝ) (hv : ∃ x ∈ v, x ≠ 0) :
    cosine_similarity v v = .ok 1 ∧
    compute_healing_score v v false = .ok 0 := by
  have hne : v ≠ [] := by
    rintro rfl
    obtain ⟨x, hx, -⟩ := hv
    cases hx
  have hpos : 0 < dotList v v := dotList_self_pos hv
  have hsq : Real.sqrt (dotList v v) ≠ 0 := by
    rw [Ne, Real.sqrt_eq_zero']
    push_neg
    exact hpos
  have hcos : cosine_similarity v v = .ok 1 := by
    simp only [cosine_similarity]
    rw [if_neg (by simp [hne]), if_neg (by simp),
      if_neg (by simp [hsq]), Real.mul_self_sqrt hpos.le,
      div_self hpos.ne']
  refine ⟨hcos, ?_⟩
  rw [compute_healing_score_ok false hcos]
  norm_num

/-- Evaluation of `self_similarity_zero_healing` at a concrete input. -/
theorem self_similarity_zero_healing_witness :
    cosine_similarity [(1 : ℝ)] [1] = .ok 1 ∧
    compute_healing_score [(1 : ℝ)] [1] false = .ok 0 :=
  self_similarity_zero_healing [1] ⟨1, by simp, one_ne_zero⟩

/-- Claim C6: for non-empty equal-length vectors and either polarity,
`compute_healing_score` succeeds and its value lies within
`[0, 100]`. -/
theorem healing_score_bounds (a b : List ℝ) (flag : Bool)
    (ha : a ≠ []) (hb : b ≠ []) (hl : a.length = b.length) :
    compute_healing_score a b flag =
      .ok ((compute_healing_score a b flag).toOption.getD 0) ∧
    0 ≤ (compute_healing_score a b flag).toOption.getD 0 ∧
    (compute_healing_score a b flag).toOption.getD 0 ≤ 100 := by
  obtain ⟨s, hs⟩ := cosine_similarity_exists_ok ha hb hl
  rw [compute_healing_score_ok flag hs]
  simp only [Except.toOption, Option.getD]
  exact ⟨trivial, le_max_left _ _, max_le (by norm_num) (min_le_left _ _)⟩

/-- Evaluation of `healing_score_bounds` at a concrete input. -/
theorem healing_score_bounds_witness :
    compute_healing_score [(1 : ℝ)] [2] true =
      .ok ((compute_healing_score [(1 : ℝ)] [2] true).toOption.getD 0) ∧
    0 ≤ (compute_healing_score [(1 : ℝ)] [2] true).toOption.getD 0 ∧
    (compute_healing_score [(1 : ℝ)] [2] true).toOption.getD 0 ≤ 100 :=
  healing_score_bounds [1] [2] true (by simp) (by simp) rfl

/-- Claim C8 fails as stated: `[0, 0]` has zero magnitude, yet against
the length-3 vector `[1, 2, 3]` the code reaches `np.dot`, which raises
on mismatched 1-D shapes, so the call does not return `0.0`. -/
theorem cosine_zero_magnitude_counterexample :
    (∀ x ∈ ([0, 0] : List ℝ), x = 0) ∧
    cosine_similarity ([0, 0] : List ℝ) [1, 2, 3] ≠ .ok 0 := by
  constructor
  · intro x hx
    simpa using hx
  · simp [cosine_similarity]

/-- Claim C8 (amended): `cosine_similarity` returns `0.0` raising no
error whenever either input is empty, or the inputs have equal length
and either of them is all-zero. -/
theorem cosine_zero_or_empty (a b : List ℝ)
    (h : a = [] ∨ b = [] ∨
      (a.length = b.length ∧ ((∀ x ∈ a, x = 0) ∨ (∀ x ∈ b, x = 0)))) :
    cosine_similarity a b = .ok 0 := by
  by_cases hemp : (a.isEmpty || b.isEmpty) = true
  · simp only [cosine_similarity]
    rw [if_pos hemp]
  · have hab : ¬(a = [] ∨ b = []) := by
      simpa [List.isEmpty_iff] using hemp
    push_neg at hab
    rcases h with rfl | rfl | ⟨hl, hz⟩
    · exact absurd rfl hab.1
    · exact absurd rfl hab.2
    · simp only [cosine_similarity]
      rw [if_neg hemp, if_neg (by simp [hl])]
      have h0 : Real.sqrt (dotList a a) = 0 ∨ Real.sqrt (dotList b b) = 0 := by
        rcases hz with hz | hz
        · exact Or.inl (by rw [dotList_self_eq_zero hz, Real.sqrt_zero])
        · exact Or.inr (by rw [dotList_self_eq_zero hz, Real.sqrt_zero])
      rw [if_pos h0]

/-- Evaluation of `cosine_zero_or_empty` at a concrete input. -/
theorem cosine_zero_or_empty_witness :
    cosine_similarity ([0, 0] : List ℝ) [1, 1] = .ok 0 :=
  cosine_zero_or_empty [0, 0] [1, 1]
    (Or.inr (Or.inr ⟨rfl, Or.inl (by intro x hx; simpa using hx)⟩))

/-- Claim C9: on two non-empty vectors of unequal length
`cosine_similarity` propagates the `ValueError` that `np.dot` raises on
mismatched 1-D shapes instead of truncating or padding. -/
theorem cosine_length_mismatch_raises (a b : List ℝ)
    (ha : a ≠ []) (hb : b ≠ []) (hl : a.length ≠ b.length) :
    cosine_similarity a b = .error "shapes not aligned" := by
  simp only [cosine_similarity]
  rw [if_neg (by simp [ha, hb]), if_pos hl]

/-- Evaluation of `cosine_length_mismatch_raises` at a concrete input. -/
theorem cosine_length_mismatch_raises_witness :
    cosine_similarity ([1] : List ℝ) [1, 2] = .error "shapes not aligned" :=
  cosine_length_mismatch_raises [1] [1, 2] (by simp) (by simp) (by simp)

/-- Claim C1: with two prior entries whose embeddings have cosine
similarity `0.6` and `0.4` to the current embedding,
`compute_comparisons` produces exactly the healing percentages
`20` and `30` (via `(1 - (s + 1) / 2) * 100` under the default
polarity) and the average healing score `25`. -/
theorem compute_comparisons_pair_scenario (cur p1 p2 : History)
    (ce pe1 pe2 : List ℝ)
    (hc : cur.dino_embedding = some ce) (hce : ce ≠ [])
    (h1 : p1.dino_embedding = some pe1) (hp1 : pe1 ≠ [])
    (h2 : p2.dino_embedding = some pe2) (hp2 : pe2 ≠ [])
    (hcos1 : cosine_similarity ce pe1 = .ok 0.6)
    (hcos2 : cosine_similarity ce pe2 = .ok 0.4) :
    (compute_comparisons cur [p1, p2]).1.map (fun c => c.healing_percentage) =
      [20, 30] ∧
    (compute_comparisons cur [p1, p2]).2 = 25 := by
  have hec : embeddingOf cur = some ce := embeddingOf_eq_some hc hce
  have he1 : embeddingOf p1 = some pe1 := embeddingOf_eq_some h1 hp1
  have he2 : embeddingOf p2 = some pe2 := embeddingOf_eq_some h2 hp2
  have hh1 : compute_healing_score ce pe1 false = .ok 20 := by
    rw [compute_healing_score_ok false hcos1]
    norm_num
  have hh2 : compute_healing_score ce pe2 false = .ok 30 := by
    rw [compute_healing_score_ok false hcos2]
    norm_num
  rw [compute_comparisons_eq_some hec]
  simp only [List.filterMap_cons, List.filterMap_nil,
    comparePair_eq_ok he1 hcos1 hh1, comparePair_eq_ok he2 hcos2 hh2,
    List.map_cons, List.map_nil, List.isEmpty_cons, List.sum_cons,
    List.sum_nil, List.length_cons, List.length_nil]
  norm_num

/-- Evaluation of `compute_comparisons_pair_scenario` at concrete
entries: the current embedding is the unit vector `e1` of `ℝ^4` and the
prior embeddings `[3, 4, 0, 0]` and `[2, 4, 2, 1]` both have norm `5`,
with dot products `3` and `2` against it, hence cosines `0.6` and
`0.4`. -/
theorem compute_comparisons_pair_scenario_witness :
    (compute_comparisons
        ⟨2, 2, some "s", some [1, 0, 0, 0], [], false⟩
        [⟨1, 1, some "s", some [3, 4, 0, 0], [], false⟩,
         ⟨0, 0, some "s", some [2, 4, 2, 1], [], true⟩]).1.map
      (fun c => c.healing_percentage) = [20, 30] ∧
    (compute_comparisons
        ⟨2, 2, some "s", some [1, 0, 0, 0], [], false⟩
        [⟨1, 1, some "s", some [3, 4, 0, 0], [], false⟩,
         ⟨0, 0, some "s", some [2, 4, 2, 1], [], true⟩]).2 = 25 := by
  have hself : dotList ([1, 0, 0, 0] : List ℝ) [1, 0, 0, 0] = 1 := by
    norm_num [dotList]
  have hs1 : dotList ([3, 4, 0, 0] : List ℝ) [3, 4, 0, 0] = 25 := by
    norm_num [dotList]
  have hs2 : dotList ([2, 4, 2, 1] : List ℝ) [2, 4, 2, 1] = 25 := by
    norm_num [dotList]
  have hd1 : dotList ([1, 0, 0, 0] : List ℝ) [3, 4, 0, 0] = 3 := by
    norm_num [dotList]
  have hd2 : dotList ([1, 0, 0, 0] : List ℝ) [2, 4, 2, 1] = 2 := by
    norm_num [dotList]
  have hcos1 : cosine_similarity ([1, 0, 0, 0] : List ℝ) [3, 4, 0, 0] =
      .ok 0.6 := by
    simp only [cosine_similarity, hself, hs1, hd1, Real.sqrt_one,
      sqrt_twentyfive]
    rw [if_neg (by simp), if_neg (by simp), if_neg (by norm_num)]
    norm_num
  have hcos2 : cosine_similarity ([1, 0, 0, 0] : List ℝ) [2, 4, 2, 1] =
      .ok 0.4 := by
    simp only [cosine_similarity, hself, hs2, hd2, Real.sqrt_one,
      sqrt_twentyfive]
    rw [if_neg (by simp), if_neg (by simp), if_neg (by norm_num)]
    norm_num
  exact compute_comparisons_pair_scenario _ _ _ _ _ _
    rfl (by simp) rfl (by simp) rfl (by simp) hcos1 hcos2

/-- Claim C2: `compute_comparisons` treats missing embeddings as
defined non-error outcomes: a current entry without an embedding yields
`([], 0.0)`, previous entries without embeddings are skipped without
changing the result, and the average is the arithmetic mean of the
healing percentages of the computed comparisons, `0.0` when none
succeeded. -/
theorem compute_comparisons_missing_embeddings (cur : History)
    (prevs : List History) :
    (cur.dino_embedding = none → compute_comparisons cur prevs = ([], 0)) ∧
    compute_comparisons cur (prevs.filter fun p => p.dino_embedding.isSome) =
      compute_comparisons cur prevs ∧
    (compute_comparisons cur prevs).2 =
      (if (compute_comparisons cur prevs).1.isEmpty then 0
       else ((compute_comparisons cur prevs).1.map
           (fun c => c.healing_percentage)).sum /
         ((compute_comparisons cur prevs).1.length : ℝ)) := by
  refine ⟨?_, ?_, ?_⟩
  · intro h
    exact compute_comparisons_eq_of_no_embedding (embeddingOf_eq_none h) prevs
  · cases hc : embeddingOf cur with
    | none =>
      rw [compute_comparisons_eq_of_no_embedding hc,
        compute_comparisons_eq_of_no_embedding hc]
    | some ce =>
      rw [compute_comparisons_eq_some hc, compute_comparisons_eq_some hc]
      have hfilter :
          (prevs.filter fun p => p.dino_embedding.isSome).filterMap
            (comparePair ce) = prevs.filterMap (comparePair ce) := by
        refine filterMap_filter_of_none _ _ ?_ prevs
        intro q hq
        refine comparePair_none_of_no_embedding ?_
        unfold embeddingOf
        cases hd : q.dino_embedding with
        | none => rfl
        | some l =>
          rw [hd] at hq
          simp at hq
      rw [hfilter]
  · cases hc : embeddingOf cur with
    | none =>
      rw [compute_comparisons_eq_of_no_embedding hc]
      simp
    | some ce =>
      rw [compute_comparisons_eq_some hc]
      have hmap : (prevs.filterMap (comparePair ce)).map (fun r => r.2) =
          ((prevs.filterMap (comparePair ce)).map (fun r => r.1)).map
            (fun c => c.healing_percentage) := by
        rw [List.map_map]
        refine List.map_congr_left ?_
        intro r hr
        obtain ⟨q, -, hq⟩ := List.mem_filterMap.1 hr
        exact comparePair_snd hq
      have hcond : ∀ l : List ComparisonResult,
          (l.map (fun c => c.healing_percentage)).isEmpty = l.isEmpty := by
        intro l
        cases l with
        | nil => rfl
        | cons a t => rfl
      simp only [hmap, List.length_map, hcond]

/-- Evaluation of `compute_comparisons_missing_embeddings` at a
concrete input: a current entry without an embedding. -/
theorem compute_comparisons_missing_embeddings_witness :
    compute_comparisons ⟨5, 5, none, none, [], false⟩
      [⟨4, 4, none, some [1, 2], [], false⟩] = ([], 0) :=
  (compute_comparisons_missing_embeddings ⟨5, 5, none, none, [], false⟩
    [⟨4, 4, none, some [1, 2], [], false⟩]).1 rfl

/-- Claim C7: a failure while computing one `(current, prior)` pair
does not abort the batch — removing the failing prior entry from the
input leaves the output of `compute_comparisons` unchanged, so that
pair is excluded and every other pair is still processed. -/
theorem pair_failure_is_isolated (cur p : History) (ce pe : List ℝ)
    (pre post : List History)
    (hc : cur.dino_embedding = some ce) (hce : ce ≠ [])
    (hp : p.dino_embedding = some pe) (hpe : pe ≠ [])
    (hfail : (cosine_similarity ce pe).isOk = false) :
    compute_comparisons cur (pre ++ p :: post) =
      compute_comparisons cur (pre ++ post) := by
  have hec : embeddingOf cur = some ce := embeddingOf_eq_some hc hce
  have hep : embeddingOf p = some pe := embeddingOf_eq_some hp hpe
  have hcp : comparePair ce p = none := by
    cases hcs : cosine_similarity ce pe with
    | ok s =>
      rw [hcs] at hfail
      simp [Except.isOk, Except.toBool] at hfail
    | error e => exact comparePair_none_of_error hep hcs
  rw [compute_comparisons_eq_some hec, compute_comparisons_eq_some hec,
    List.filterMap_append, List.filterMap_append,
    List.filterMap_cons_none hcp]

/-- Evaluation of `pair_failure_is_isolated` at a concrete input: the
prior entry's stored embedding has length 3 while the current embedding
has length 2, so the pair computation raises inside the loop and is
skipped. -/
theorem pair_failure_is_isolated_witness :
    compute_comparisons ⟨3, 3, some "s", some [1, 0], [], false⟩
      ([] ++ ⟨4, 4, some "s", some [1, 2, 3], [], false⟩ ::
        [⟨5, 5, some "s", some [0, 1], [], false⟩]) =
    compute_comparisons ⟨3, 3, some "s", some [1, 0], [], false⟩
      ([] ++ [⟨5, 5, some "s", some [0, 1], [], false⟩]) :=
  pair_failure_is_isolated _ _ [1, 0] [1, 2, 3] [] _
    rfl (by simp) rfl (by simp)
    (by simp [cosine_similarity, Except.isOk, Except.toBool])

/-- Claim C4: the automatic baseline detection of
`analyze_with_auto_save` marks a new entry as baseline exactly when the
section's existing-entry count observed before the insert is zero, and
after an entry of the section exists every subsequent upload is marked
as non-baseline. -/
theorem auto_baseline_iff_no_existing_entries (db : List History)
    (sid : String) :
    (auto_is_baseline db sid = true ↔
      (db.countP fun h => h.section_id == some sid) = 0) ∧
    ∀ e : History, e.section_id = some sid →
      auto_is_baseline (e :: db) sid = false := by
  have key : ∀ d : List History, auto_is_baseline d sid = true ↔
      (d.filter fun h => h.section_id == some sid) = [] := by
    intro d
    simp only [auto_is_baseline, get_section_history, List.drop_zero,
      beq_iff_eq, List.length_eq_zero, List.take_eq_nil_iff,
      mergeSort_eq_nil_iff]
    simp
  constructor
  · rw [key db, List.filter_eq_nil_iff, List.countP_eq_zero]
  · intro e he
    rw [← Bool.not_eq_true]
    intro hbase
    have hnil := (key (e :: db)).1 hbase
    rw [List.filter_cons_of_pos (by simp [he])] at hnil
    cases hnil

/-- Evaluation of `auto_baseline_iff_no_existing_entries` at concrete
inputs: the first upload to a fresh section is baseline, the second is
not. -/
theorem auto_baseline_iff_no_existing_entries_witness :
    auto_is_baseline [] "leg" = true ∧
    auto_is_baseline [⟨1, 1, some "leg", none, [], true⟩] "leg" = false :=
  ⟨(auto_baseline_iff_no_existing_entries [] "leg").1.mpr rfl,
   (auto_baseline_iff_no_existing_entries [] "leg").2
     ⟨1, 1, some "leg", none, [], true⟩ rfl⟩

end Hackaton
